import Mathlib

/-!
Verification of the cloudflare-logpull-exporter collection core.

This file gives a shallow embedding of the exporter's data model and
operations (src/logpull.go, src/errors.go, src/collector.go), and proves
the specification claims about them.

Modelling conventions:
- `time.Duration` values are `Int` nanoseconds.
- The HTTP transport is an explicit input: a pull observes an `httpResult`
  (a transport failure, or a response with status code, status line and the
  body bytes that were delivered).  `api.httpClient.Do` becomes a function
  `apiRequest → httpResult` supplied by the environment.
- `encoding/json`'s `Unmarshal` is external library code; the pull loop is
  parameterised by a line decoder `String → Option logEntry`, and
  `jsonUnmarshalLogEntry` below is an executable model of `Unmarshal` on the
  flat objects the Logpull API returns (used to evaluate concrete runs).
- Goroutine fan-out joined by a `sync.WaitGroup` barrier is modelled as a
  deterministic map over the zone list: each zone task owns its private
  aggregator and the only cross-task state, the error counter, is modelled
  by counting the tasks that erred.  `time.Now()` is read exactly once per
  `Collect` call in the source, so `now` is a single input of the model.
-/

set_option maxRecDepth 20000

/-- logEntry mirrors the `logEntry` struct of src/logpull.go: the three
fields the exporter cares about from a Logpull API response line. -/
structure logEntry where
  ClientRequestHost : String
  EdgeResponseStatus : Int
  OriginResponseStatus : Int
deriving DecidableEq, Repr

/-- authType mirrors the `authType` enumeration of src/logpull.go. -/
inductive authType where
  | authKeyEmail
  | authUserService
  | authToken
deriving DecidableEq, Repr

/-- defaultBaseURL from src/logpull.go. -/
def defaultBaseURL : String := "https://api.cloudflare.com/client/v4"

/-- logpullAPI mirrors the `logpullAPI` struct of src/logpull.go (the
`httpClient` field is the external transport, passed separately as a
function where needed). -/
structure logpullAPI where
  baseURL : String
  authType : authType
  apiKey : String
  apiEmail : String
  apiToken : String
  apiUserService : String
deriving DecidableEq, Repr

/-- newLogpullAPI from src/logpull.go: key+email authentication. -/
def newLogpullAPI (key email : String) : logpullAPI :=
  { baseURL := defaultBaseURL
    authType := authType.authKeyEmail
    apiKey := key
    apiEmail := email
    apiToken := ""
    apiUserService := "" }

/-- newLogpullAPIWithToken from src/logpull.go: API-token authentication. -/
def newLogpullAPIWithToken (token : String) : logpullAPI :=
  { baseURL := defaultBaseURL
    authType := authType.authToken
    apiKey := ""
    apiEmail := ""
    apiToken := token
    apiUserService := "" }

/-- newLogpullAPIWithUserServiceKey from src/logpull.go: user-service-key
authentication. -/
def newLogpullAPIWithUserServiceKey (key : String) : logpullAPI :=
  { baseURL := defaultBaseURL
    authType := authType.authUserService
    apiKey := ""
    apiEmail := ""
    apiToken := ""
    apiUserService := key }

/-- authHeaders models lines 129-140 of src/logpull.go: the three
sequential `if api.authType == ...` blocks that attach the auth headers to
the request being built. -/
def authHeaders (api : logpullAPI) : List (String × String) :=
  (if api.authType = authType.authToken then
    [("Authorization", "Bearer " ++ api.apiToken)]
  else []) ++
  (if api.authType = authType.authKeyEmail then
    [("X-Auth-Key", api.apiKey), ("X-Auth-Email", api.apiEmail)]
  else []) ++
  (if api.authType = authType.authUserService then
    [("X-Auth-User-Service-Key", api.apiUserService)]
  else [])

/-- requestHeaders: the full header list of the request built by
`pullLogEntries` (the constant `Accept` header followed by the auth
headers). -/
def requestHeaders (api : logpullAPI) : List (String × String) :=
  ("Accept", "application/json") :: authHeaders api

/-- apiRequest is the request `pullLogEntries` builds for one zone: the
zone it targets, the `start`/`end` query parameters (Unix nanoseconds; the
source formats them as RFC-3339 into the URL) and the headers. -/
structure apiRequest where
  zoneID : String
  startTime : Int
  endTime : Int
  headers : List (String × String)
deriving DecidableEq, Repr

/-- zoneRequest: the request built by `pullLogEntries` in src/logpull.go
(lines 111-140) for a given zone and window. -/
def zoneRequest (api : logpullAPI) (zoneID : String) (startTime endTime : Int) : apiRequest :=
  { zoneID := zoneID
    startTime := startTime
    endTime := endTime
    headers := requestHeaders api }

/-- httpResponseData is what the transport hands back for one request:
`resp.StatusCode`, the `resp.Status` line, the body bytes delivered, and
whether `ioutil.ReadAll` of the body fails (the source only reads the full
body in the non-200 branch; in the 200 branch it scans the delivered bytes
and ignores `scanner.Err()`). -/
structure httpResponseData where
  statusCode : Nat
  status : String
  body : String
  bodyReadError : Option String
deriving DecidableEq, Repr

/-- httpResult is the outcome of `api.httpClient.Do(req)`: either a
transport-level failure or a response. -/
inductive httpResult where
  | transportError (msg : String)
  | response (r : httpResponseData)
deriving DecidableEq, Repr

/-- pullErr identifies which error-return branch of `pullLogEntries`
(src/logpull.go lines 122-173) produced the failure, carrying the
diagnostic text the source formats there.  `creatingRequest` corresponds
to the `http.NewRequest` branch, which cannot fire in this model (the
method and URL are well-formed by construction). -/
inductive pullErr where
  | creatingRequest (msg : String)
  | performingRequest (msg : String)
  | readingBody (msg : String)
  | unexpectedStatus (msg : String)
  | jsonParse (line : String)
  | handlerError (msg : String)
deriving DecidableEq, Repr

/-- ErrKindHTTPProto from src/errors.go. -/
def ErrKindHTTPProto : String := "http_protocol"

/-- ErrKindHTTPStatus from src/errors.go. -/
def ErrKindHTTPStatus : String := "http_status"

/-- ErrKindJSONParse from src/errors.go. -/
def ErrKindJSONParse : String := "json_parse"

/-- retryableKind classifies each `pullLogEntries` failure branch with the
RetryableAPIError kind of src/errors.go that the repository's
`getLogEntries` (src/unnamed/part_001) attaches to the same branch:
transport failures are `http_protocol`, non-success statuses are
`http_status`, malformed lines are `json_parse`. -/
def retryableKind : pullErr → Option String
  | pullErr.performingRequest _ => some ErrKindHTTPProto
  | pullErr.unexpectedStatus _ => some ErrKindHTTPStatus
  | pullErr.jsonParse _ => some ErrKindJSONParse
  | _ => none

/-- dropCR models the `dropCR` helper of `bufio.ScanLines`: strip one
trailing carriage return. -/
def dropCR (l : List Char) : List Char :=
  if l.getLast? = some '\r' then l.dropLast else l

/-- scanLinesAux: accumulates the current line (reversed) and splits on
newline, as `bufio.ScanLines` does; at end of input a non-empty remainder
is a final token and an empty remainder is not. -/
def scanLinesAux : List Char → List Char → List String
  | [], acc => if acc.isEmpty then [] else [String.mk (dropCR acc.reverse)]
  | '\n' :: rest, acc => String.mk (dropCR acc.reverse) :: scanLinesAux rest []
  | c :: rest, acc => scanLinesAux rest (c :: acc)

/-- scanLines models `bufio.Scanner` with `bufio.ScanLines` over the
response body (src/logpull.go lines 159-162). -/
def scanLines (s : String) : List String := scanLinesAux s.data []

/-- scanLoop models the scan loop of src/logpull.go lines 162-170: decode
each line; a malformed line aborts with the `json:` error; otherwise the
handler is invoked, a handler error aborts with the `handler:` error.  It
returns the sequence of entries passed to the handler, in order, together
with the error result. -/
def scanLoop (decode : String → Option logEntry) (handler : logEntry → Option String) :
    List String → List logEntry × Option pullErr
  | [] => ([], none)
  | line :: rest =>
    match decode line with
    | none => ([], some (pullErr.jsonParse line))
    | some entry =>
      match handler entry with
      | some msg => ([entry], some (pullErr.handlerError msg))
      | none =>
        let r := scanLoop decode handler rest
        (entry :: r.1, r.2)

/-- pullLogEntriesWith models src/logpull.go lines 142-173, from the
`httpClient.Do` call on: a transport failure returns the `performing api
request` error; a non-200 status reads the full body and returns the
`unexpected api response: <status>: <body>` error (or the read error if
reading the body fails); a 200 status scans the delivered body lines.  The
first component is the sequence of entries handed to the handler. -/
def pullLogEntriesWith (decode : String → Option logEntry)
    (handler : logEntry → Option String) :
    httpResult → List logEntry × Option pullErr
  | httpResult.transportError msg => ([], some (pullErr.performingRequest msg))
  | httpResult.response r =>
    if r.statusCode ≠ 200 then
      match r.bodyReadError with
      | some msg => ([], some (pullErr.readingBody ("reading api response body: " ++ msg)))
      | none =>
        ([], some (pullErr.unexpectedStatus
          ("unexpected api response: " ++ r.status ++ ": " ++ r.body)))
    else
      scanLoop decode handler (scanLines r.body)

/-- pullLogEntries models the whole of `pullLogEntries` in src/logpull.go:
build the request for the zone and window, perform it through the given
transport, and process the result. -/
def pullLogEntries (decode : String → Option logEntry) (api : logpullAPI)
    (zoneID : String) (startTime endTime : Int)
    (doRequest : apiRequest → httpResult)
    (handler : logEntry → Option String) : List logEntry × Option pullErr :=
  pullLogEntriesWith decode handler (doRequest (zoneRequest api zoneID startTime endTime))

/-- skipWS skips JSON insignificant whitespace. -/
def skipWS : List Char → List Char
  | c :: rest =>
    if c = ' ' ∨ c = '\t' ∨ c = '\n' ∨ c = '\r' then skipWS rest else c :: rest
  | [] => []

/-- takeDigits splits a leading run of decimal digits off a character
list. -/
def takeDigits : List Char → List Char × List Char
  | [] => ([], [])
  | c :: rest =>
    if c.isDigit then
      let r := takeDigits rest
      (c :: r.1, r.2)
    else ([], c :: rest)

/-- digitsToNat reads a digit run as a natural number. -/
def digitsToNat (l : List Char) : Nat :=
  l.foldl (fun acc c => acc * 10 + (c.toNat - 48)) 0

/-- parseJSONInt parses an optionally-signed JSON integer. -/
def parseJSONInt (l : List Char) : Option (Int × List Char) :=
  match l with
  | '-' :: rest =>
    let p := takeDigits rest
    if p.1.isEmpty then none else some (-(digitsToNat p.1 : Int), p.2)
  | _ =>
    let p := takeDigits l
    if p.1.isEmpty then none else some ((digitsToNat p.1 : Int), p.2)

/-- parseJSONStringBody parses the remainder of a JSON string after the
opening quote (escape sequences are outside the modelled subset). -/
def parseJSONStringBody : List Char → List Char → Option (String × List Char)
  | [], _ => none
  | '"' :: rest, acc => some (String.mk acc.reverse, rest)
  | '\\' :: _, _ => none
  | c :: rest, acc => parseJSONStringBody rest (c :: acc)

/-- jsonValue: the value shapes appearing in Logpull response lines. -/
inductive jsonValue where
  | str (s : String)
  | num (n : Int)
deriving DecidableEq, Repr

/-- parseJSONValue parses a string or integer JSON value. -/
def parseJSONValue (l : List Char) : Option (jsonValue × List Char) :=
  match l with
  | '"' :: rest =>
    match parseJSONStringBody rest [] with
    | some (s, r) => some (jsonValue.str s, r)
    | none => none
  | _ =>
    match parseJSONInt l with
    | some (n, r) => some (jsonValue.num n, r)
    | none => none

/-- applyField applies one decoded key/value pair to a logEntry the way
`encoding/json` fills the struct of src/logpull.go: the three tagged
fields must have the matching value type, unknown keys are ignored. -/
def applyField (e : logEntry) (key : String) (v : jsonValue) : Option logEntry :=
  if key = "ClientRequestHost" then
    match v with
    | jsonValue.str s => some { e with ClientRequestHost := s }
    | _ => none
  else if key = "EdgeResponseStatus" then
    match v with
    | jsonValue.num n => some { e with EdgeResponseStatus := n }
    | _ => none
  else if key = "OriginResponseStatus" then
    match v with
    | jsonValue.num n => some { e with OriginResponseStatus := n }
    | _ => none
  else some e

/-- parseJSONPairs parses the key/value pairs of a flat JSON object after
the opening brace, threading the partially-filled logEntry; the fuel is an
upper bound on the number of pairs. -/
def parseJSONPairs : Nat → logEntry → List Char → Option (logEntry × List Char)
  | 0, _, _ => none
  | fuel + 1, e, l =>
    match skipWS l with
    | '"' :: rest =>
      match parseJSONStringBody rest [] with
      | none => none
      | some (key, r1) =>
        match skipWS r1 with
        | ':' :: r2 =>
          match parseJSONValue (skipWS r2) with
          | none => none
          | some (v, r3) =>
            match applyField e key v with
            | none => none
            | some e2 =>
              match skipWS r3 with
              | ',' :: r4 => parseJSONPairs fuel e2 r4
              | '}' :: r4 => some (e2, r4)
              | _ => none
        | _ => none
    | _ => none

/-- zeroLogEntry is the zero value `encoding/json` starts from when
unmarshaling into a fresh `logEntry`. -/
def zeroLogEntry : logEntry :=
  { ClientRequestHost := "", EdgeResponseStatus := 0, OriginResponseStatus := 0 }

/-- jsonUnmarshalLogEntry is an executable model of
`json.Unmarshal(line, &entry)` from src/logpull.go line 164, restricted to
the flat objects with string and integer values that the Logpull API
emits: a well-formed flat object yields the decoded entry, anything else
is a decode failure. -/
def jsonUnmarshalLogEntry (s : String) : Option logEntry :=
  match skipWS s.data with
  | '{' :: rest =>
    match skipWS rest with
    | '}' :: r => if (skipWS r).isEmpty then some zeroLogEntry else none
    | _ =>
      match parseJSONPairs (rest.length + 1) zeroLogEntry rest with
      | some (e, r) => if (skipWS r).isEmpty then some e else none
      | none => none
  | _ => none

/-- aggLookup models `m[entry]` on the Go map underlying
`HTTPResponseAggregator` (src/collectors.go line 109), represented as an
association list: the count stored for a key, if present. -/
def aggLookup (e : logEntry) : List (logEntry × Nat) → Option Nat
  | [] => none
  | (k, v) :: rest => if k = e then some v else aggLookup e rest

/-- aggInc models `Inc` of src/collectors.go lines 112-115 (and the
`responses[entry]++` closure of src/collector.go lines 98-100): read the
previous count, defaulting to zero for an unseen tuple, and store the
count plus one. -/
def aggInc (m : List (logEntry × Nat)) (e : logEntry) : List (logEntry × Nat) :=
  match m with
  | [] => [(e, 1)]
  | (k, v) :: rest => if k = e then (k, v + 1) :: rest else (k, v) :: aggInc rest e

/-- aggFold: the aggregator state after feeding a stream of records, in
order, into a fresh (empty) aggregator via `aggInc`. -/
def aggFold (xs : List logEntry) : List (logEntry × Nat) :=
  xs.foldl aggInc []

/-- aggKeys: the key set of an aggregator state. -/
def aggKeys (m : List (logEntry × Nat)) : List logEntry := m.map Prod.fst

/-- sumCounts: the total of all counts held by an aggregator state. -/
def sumCounts (m : List (logEntry × Nat)) : Nat := (m.map Prod.snd).sum

/-- secondNs: time.Second in nanoseconds. -/
def secondNs : Int := 1000000000

/-- millisecondNs: time.Millisecond in nanoseconds. -/
def millisecondNs : Int := 1000000

/-- minuteNs: time.Minute in nanoseconds. -/
def minuteNs : Int := 60 * secondNs

/-- hourNs: time.Hour in nanoseconds. -/
def hourNs : Int := 60 * minuteNs

/-- logPeriodRange from src/collector.go line 18: seven days less one
minute. -/
def logPeriodRange : Int := 7 * 24 * hourNs - minuteNs

/-- promDurationString models src/collector.go lines 128-146.  The Go
source truncates `d.Hours()` etc. through float64; for every duration
below 2^53 nanoseconds (far beyond the validated 7-day range) that
truncation coincides with integer division truncated toward zero, which
is `Int.tdiv` here.  `d.Milliseconds()` is already integer division in
Go. -/
def promDurationString (d : Int) : String :=
  let s := ""
  let h := d.tdiv hourNs
  let p1 := if h > 0 then (s ++ toString h ++ "h", d - h * hourNs) else (s, d)
  let m := p1.2.tdiv minuteNs
  let p2 := if m > 0 then (p1.1 ++ toString m ++ "m", p1.2 - m * minuteNs) else p1
  let sec := p2.2.tdiv secondNs
  let p3 := if sec > 0 then (p2.1 ++ toString sec ++ "s", p2.2 - sec * secondNs) else p2
  let ms := p3.2.tdiv millisecondNs
  if ms > 0 then p3.1 ++ toString ms ++ "ms" else p3.1

/-- promDesc models a `prometheus.Desc`: metric name, help text, variable
label names and constant labels. -/
structure promDesc where
  name : String
  help : String
  variableLabels : List String
  constLabels : List (String × String)
deriving DecidableEq, Repr

/-- collector mirrors the `collector` struct of src/collector.go (the
error counter starts at zero each process lifetime and its increments are
counted by `collect`; the error handler is an external sink). -/
structure collector where
  api : logpullAPI
  zoneIDs : List String
  logPeriod : Int
  responseDesc : promDesc
deriving DecidableEq, Repr

/-- newCollector models src/collector.go lines 31-70: validate that the
api is not nil, the zone set is non-empty and the period is under
`logPeriodRange`, then build the collector whose response descriptor
carries the constant `period` label.  The error handler parameter mirrors
the Go signature; like the source, the constructor does not inspect it. -/
def newCollector (api : Option logpullAPI) (zoneIDs : List String) (logPeriod : Int)
    (errorHandler : Option Unit) : Except String collector :=
  match api with
  | none => Except.error "invalid parameter: api must not be nil"
  | some a =>
    if zoneIDs.length = 0 then
      Except.error "invalid parameter: zoneIDs must not be empty"
    else if logPeriodRange ≤ logPeriod then
      Except.error "invalid parameter: logPeriod out of acceptable range"
    else
      Except.ok
        { api := a
          zoneIDs := zoneIDs
          logPeriod := logPeriod
          responseDesc :=
            { name := "cloudflare_logs_http_responses"
              help := "Cloudflare HTTP responses, obtained via Logpull API"
              variableLabels :=
                ["client_request_host", "edge_response_status", "origin_response_status"]
              constLabels := [("period", promDurationString logPeriod)] } }

/-- windowEnd models src/collector.go line 87: `end` is the cycle's single
`time.Now()` reading minus one minute. -/
def windowEnd (now : Int) : Int := now - minuteNs

/-- windowStart models src/collector.go line 88: `start = end - logPeriod`. -/
def windowStart (now logPeriod : Int) : Int := windowEnd now - logPeriod

/-- collectRequests: the requests the cycle dispatches, one per configured
zone, all built from the one (start, end) pair computed at the top of
`Collect`. -/
def collectRequests (c : collector) (now : Int) : List apiRequest :=
  c.zoneIDs.map (fun z =>
    zoneRequest c.api z (windowStart now c.logPeriod) (windowEnd now))

/-- collectorHandler is the per-record callback of src/collector.go lines
98-101: it aggregates (modelled through the returned record trace) and
always returns nil. -/
def collectorHandler : logEntry → Option String := fun _ => none

/-- zoneResult: what one zone's task contributes — the aggregator it
drained and whether its pull returned an error (one error-counter
increment). -/
structure zoneResult where
  agg : List (logEntry × Nat)
  errored : Bool
deriving DecidableEq, Repr

/-- runZoneTask models the goroutine body of src/collector.go lines
95-120: pull the zone's logs, feeding each record into the private
aggregator; whatever the aggregator accumulated is drained and emitted
whether or not the pull failed, and a failed pull additionally increments
the error counter (recorded by `errored`). -/
def runZoneTask (decode : String → Option logEntry) (resp : httpResult) : zoneResult :=
  let r := pullLogEntriesWith decode collectorHandler resp
  { agg := r.1.foldl aggInc []
    errored := r.2.isSome }

/-- metricSample models one `prometheus.MustNewConstMetric` emission: the
descriptor (with its constant labels), the variable label values and the
gauge value. -/
structure metricSample where
  desc : promDesc
  labelValues : List String
  value : Nat
deriving DecidableEq, Repr

/-- emitSamples models the drain loop of src/collector.go lines 106-115:
each aggregated (entry, count) pair becomes one sample on the collector's
response descriptor, with the host and the two statuses (via
`strconv.Itoa`) as variable label values. -/
def emitSamples (desc : promDesc) (agg : List (logEntry × Nat)) : List metricSample :=
  agg.map (fun p =>
    { desc := desc
      labelValues :=
        [p.1.ClientRequestHost, toString p.1.EdgeResponseStatus,
          toString p.1.OriginResponseStatus]
      value := p.2 })

/-- collectResult: everything one `Collect` cycle hands outward — the
samples sent on the channel and the number of error-counter increments. -/
structure collectResult where
  samples : List metricSample
  errorIncrements : Nat
deriving DecidableEq, Repr

/-- collect models `Collect` of src/collector.go lines 83-124: compute the
window once, dispatch one task per zone (each with a private aggregator),
join them all, emit every task's drained samples and count the
error-counter increments.  The concurrent fan-out is deterministic here
because tasks share no mutable state except the (atomic) error counter. -/
def collect (decode : String → Option logEntry) (c : collector)
    (doRequest : apiRequest → httpResult) (now : Int) : collectResult :=
  let results := (collectRequests c now).map (fun r => runZoneTask decode (doRequest r))
  { samples := results.flatMap (fun zr => emitSamples c.responseDesc zr.agg)
    errorIncrements := (results.filter (fun zr => zr.errored)).length }

/-- The scan loop delivers one entry per decodable line, in order, and
returns no error when every line decodes and the handler never errs. -/
theorem scanLoop_forall2 (decode : String → Option logEntry)
    (handler : logEntry → Option String) (hh : ∀ x, handler x = none) :
    ∀ {lines : List String} {entries : List logEntry},
      List.Forall₂ (fun l ent => decode l = some ent) lines entries →
      scanLoop decode handler lines = (entries, none) := by
  intro lines entries hfa
  induction hfa with
  | nil => rfl
  | cons hl _ ih =>
    simp only [scanLoop, hl, hh, ih]

/-- Looking up the incremented key reads the old count (zero when the key
was unseen) plus one. -/
theorem aggLookup_aggInc_self (m : List (logEntry × Nat)) (e : logEntry) :
    aggLookup e (aggInc m e) = some ((aggLookup e m).getD 0 + 1) := by
  induction m with
  | nil => simp [aggInc, aggLookup]
  | cons p t ih =>
    obtain ⟨k, v⟩ := p
    by_cases hk : k = e
    · subst hk
      simp [aggInc, aggLookup]
    · simp [aggInc, aggLookup, hk, ih]

/-- Incrementing one key leaves every other key's count unchanged. -/
theorem aggLookup_aggInc_ne (m : List (logEntry × Nat)) {e x : logEntry}
    (hne : e ≠ x) : aggLookup e (aggInc m x) = aggLookup e m := by
  have hxe : ¬x = e := fun h => hne h.symm
  induction m with
  | nil => simp [aggInc, aggLookup, hxe]
  | cons p t ih =>
    obtain ⟨k, v⟩ := p
    by_cases hk : k = x
    · subst hk
      simp [aggInc, aggLookup, hxe]
    · simp [aggInc, aggLookup, hk, ih]

/-- A key outside the key set has no stored count. -/
theorem aggLookup_eq_none_of_not_mem {m : List (logEntry × Nat)} {e : logEntry}
    (h : e ∉ aggKeys m) : aggLookup e m = none := by
  induction m with
  | nil => rfl
  | cons p t ih =>
    simp only [aggKeys, List.map_cons, List.mem_cons] at h
    push_neg at h
    simp only [aggLookup]
    rw [if_neg (fun hk => h.1 hk.symm)]
    exact ih (by simpa [aggKeys] using h.2)

/-- Incrementing keeps the key set, only appending a genuinely new key. -/
theorem aggKeys_aggInc (m : List (logEntry × Nat)) (x : logEntry) :
    aggKeys (aggInc m x) =
      if x ∈ aggKeys m then aggKeys m else aggKeys m ++ [x] := by
  induction m with
  | nil => simp [aggInc, aggKeys]
  | cons p t ih =>
    obtain ⟨k, v⟩ := p
    by_cases hk : k = x
    · subst hk
      simp [aggInc, aggKeys]
    · have hxk : ¬x = k := fun h => hk h.symm
      simp only [aggInc, if_neg hk, aggKeys, List.map_cons] at ih ⊢
      rw [ih]
      by_cases hm : x ∈ List.map Prod.fst t <;> simp [hm, hxk]

/-- Incrementing preserves distinctness of the key set. -/
theorem nodup_aggKeys_aggInc {m : List (logEntry × Nat)} (x : logEntry)
    (h : (aggKeys m).Nodup) : (aggKeys (aggInc m x)).Nodup := by
  rw [aggKeys_aggInc]
  by_cases hm : x ∈ aggKeys m
  · simpa [hm] using h
  · rw [if_neg hm, List.nodup_append]
    refine ⟨h, List.nodup_singleton x, ?_⟩
    intro a ha hax
    rw [List.mem_singleton] at hax
    subst hax
    exact hm ha

/-- Folding a record stream over any distinct-keyed aggregator keeps the
keys distinct. -/
theorem nodup_aggKeys_foldl (xs : List logEntry) :
    ∀ m : List (logEntry × Nat), (aggKeys m).Nodup →
      (aggKeys (xs.foldl aggInc m)).Nodup := by
  induction xs with
  | nil => intro m h; simpa using h
  | cons x t ih =>
    intro m h
    simpa using ih (aggInc m x) (nodup_aggKeys_aggInc x h)

/-- The aggregator built from a fresh stream has distinct keys. -/
theorem nodup_aggKeys_aggFold (xs : List logEntry) :
    (aggKeys (aggFold xs)).Nodup :=
  nodup_aggKeys_foldl xs [] (by simp [aggKeys])

/-- Folding a stream over an aggregator adds each key's occurrence count
to its stored count, creating the entry where needed. -/
theorem aggLookup_foldl (xs : List logEntry) :
    ∀ (m : List (logEntry × Nat)) (e : logEntry),
      aggLookup e (xs.foldl aggInc m) =
        match aggLookup e m with
        | some v => some (v + xs.count e)
        | none => if xs.count e = 0 then none else some (xs.count e) := by
  induction xs with
  | nil =>
    intro m e
    cases hm : aggLookup e m <;> simp [hm]
  | cons x t ih =>
    intro m e
    simp only [List.foldl_cons]
    rw [ih]
    by_cases he : x = e
    · subst he
      rw [aggLookup_aggInc_self, List.count_cons_self]
      cases hm : aggLookup x m with
      | none => simp [hm]; omega
      | some v => simp [hm]; omega
    · have hne : e ≠ x := fun h => he h.symm
      rw [aggLookup_aggInc_ne m hne, List.count_cons_of_ne hne]

/-- The aggregator built from a stream stores exactly the stream's
occurrence count for each record that occurs, and nothing for records
that do not. -/
theorem aggLookup_aggFold (xs : List logEntry) (e : logEntry) :
    aggLookup e (aggFold xs) =
      if xs.count e = 0 then none else some (xs.count e) := by
  have := aggLookup_foldl xs [] e
  simpa [aggFold, aggLookup] using this

/-- Feeding n copies of one record into an aggregator already holding v of
them leaves a single pair with count v + n. -/
theorem aggFold_replicate_aux (n : Nat) (e : logEntry) :
    ∀ v : Nat, List.foldl aggInc [(e, v)] (List.replicate n e) = [(e, v + n)] := by
  induction n with
  | zero => intro v; simp
  | succ k ih =>
    intro v
    have hstep : aggInc [(e, v)] e = [(e, v + 1)] := by simp [aggInc]
    have harith : v + 1 + k = v + (k + 1) := by omega
    simp only [List.replicate_succ, List.foldl_cons, hstep, ih, harith]

/-- Each increment adds exactly one to the aggregator's total count. -/
theorem sumCounts_aggInc (m : List (logEntry × Nat)) (e : logEntry) :
    sumCounts (aggInc m e) = sumCounts m + 1 := by
  induction m with
  | nil => simp [aggInc, sumCounts]
  | cons p t ih =>
    obtain ⟨k, v⟩ := p
    by_cases hk : k = e
    · subst hk
      simp [aggInc, sumCounts]
      omega
    · simp only [aggInc, if_neg hk, sumCounts, List.map_cons, List.sum_cons] at ih ⊢
      omega

/-- Folding a stream adds the stream's length to the total count. -/
theorem sumCounts_foldl (xs : List logEntry) :
    ∀ m : List (logEntry × Nat), sumCounts (xs.foldl aggInc m) = sumCounts m + xs.length := by
  induction xs with
  | nil => intro m; simp
  | cons x t ih =>
    intro m
    simp only [List.foldl_cons, List.length_cons, ih, sumCounts_aggInc]
    omega

/-- Incrementing preserves strict positivity of every stored count. -/
theorem pos_counts_aggInc {m : List (logEntry × Nat)} (e : logEntry)
    (h : ∀ p ∈ m, 0 < p.2) : ∀ p ∈ aggInc m e, 0 < p.2 := by
  induction m with
  | nil =>
    intro p hp
    simp [aggInc] at hp
    subst hp
    exact Nat.one_pos
  | cons q t ih =>
    obtain ⟨k, v⟩ := q
    intro p hp
    by_cases hk : k = e
    · subst hk
      simp [aggInc] at hp
      rcases hp with hp | hp
      · subst hp; exact Nat.succ_pos v
      · exact h p (List.mem_cons_of_mem _ hp)
    · simp only [aggInc, if_neg hk, List.mem_cons] at hp
      rcases hp with hp | hp
      · subst hp; exact h (k, v) (List.mem_cons_self _ _)
      · exact ih (fun q hq => h q (List.mem_cons_of_mem _ hq)) p hp

/-- Folding a stream preserves strict positivity of every stored count. -/
theorem pos_counts_foldl (xs : List logEntry) :
    ∀ m : List (logEntry × Nat), (∀ p ∈ m, 0 < p.2) →
      ∀ p ∈ xs.foldl aggInc m, 0 < p.2 := by
  induction xs with
  | nil => intro m h; simpa using h
  | cons x t ih =>
    intro m h
    exact ih (aggInc m x) (pos_counts_aggInc x h)

/-- Lookup over an appended aggregator searches the left part first. -/
theorem aggLookup_append (e : logEntry) (a b : List (logEntry × Nat)) :
    aggLookup e (a ++ b) =
      match aggLookup e a with
      | some v => some v
      | none => aggLookup e b := by
  induction a with
  | nil => simp [aggLookup]
  | cons p t ih =>
    obtain ⟨k, v⟩ := p
    by_cases hk : k = e <;> simp [aggLookup, hk, ih]

/-- A successful lookup splits the aggregator at the first occurrence of
the key. -/
theorem aggLookup_split :
    ∀ (l : List (logEntry × Nat)) (k : logEntry) (v : Nat),
      aggLookup k l = some v → ∃ a b, l = a ++ (k, v) :: b ∧ k ∉ aggKeys a := by
  intro l
  induction l with
  | nil => intro k v h; simp [aggLookup] at h
  | cons p t ih =>
    intro k v h
    obtain ⟨k0, v0⟩ := p
    by_cases hk : k0 = k
    · subst hk
      have hv : v0 = v := by simpa [aggLookup] using h
      subst hv
      exact ⟨[], t, rfl, by simp [aggKeys]⟩
    · have h2 : aggLookup k t = some v := by simpa [aggLookup, hk] using h
      obtain ⟨a, b, rfl, hna⟩ := ih k v h2
      refine ⟨(k0, v0) :: a, b, rfl, ?_⟩
      simp only [aggKeys, List.map_cons, List.mem_cons]
      push_neg
      exact ⟨fun hh => hk hh.symm, by simpa [aggKeys] using hna⟩

/-- Skipping a pair whose key differs from the one being looked up does
not change the lookup result. -/
theorem aggLookup_append_middle (e k : logEntry) (v : Nat)
    (a b : List (logEntry × Nat)) (hne : ¬k = e) :
    aggLookup e (a ++ (k, v) :: b) = aggLookup e (a ++ b) := by
  rw [aggLookup_append, aggLookup_append]
  cases aggLookup e a with
  | some w => rfl
  | none => simp [aggLookup, hne]

/-- Two aggregator states with distinct keys and identical lookups are
permutations of one another: the drained pair multiset is determined by
the counting function. -/
theorem agg_ext_perm :
    ∀ l1 l2 : List (logEntry × Nat),
      (aggKeys l1).Nodup → (aggKeys l2).Nodup →
      (∀ e, aggLookup e l1 = aggLookup e l2) → l1.Perm l2 := by
  intro l1
  induction l1 with
  | nil =>
    intro l2 _ _ h
    cases l2 with
    | nil => exact List.Perm.refl []
    | cons p t =>
      exfalso
      have hp := h p.1
      simp [aggLookup] at hp
  | cons p t1 ih =>
    intro l2 h1 h2 h
    obtain ⟨k, v⟩ := p
    have hk2 : aggLookup k l2 = some v := by
      have hk := h k
      simpa [aggLookup] using hk.symm
    obtain ⟨a, b, rfl, hna⟩ := aggLookup_split l2 k v hk2
    have hperm2 : (a ++ (k, v) :: b).Perm ((k, v) :: (a ++ b)) := List.perm_middle
    have hkeysperm : (aggKeys (a ++ (k, v) :: b)).Perm (aggKeys ((k, v) :: (a ++ b))) :=
      hperm2.map Prod.fst
    have hkeys2 : (aggKeys ((k, v) :: (a ++ b))).Nodup := hkeysperm.nodup_iff.mp h2
    have hknotin2 : k ∉ aggKeys (a ++ b) := by
      have := hkeys2
      simp only [aggKeys, List.map_cons, List.nodup_cons] at this
      exact fun hmem => this.1 (by simpa [aggKeys] using hmem)
    have hnodupab : (aggKeys (a ++ b)).Nodup := by
      have := hkeys2
      simp only [aggKeys, List.map_cons, List.nodup_cons] at this
      simpa [aggKeys] using this.2
    have hknotin1 : k ∉ aggKeys t1 := by
      have := h1
      simp only [aggKeys, List.map_cons, List.nodup_cons] at this
      exact fun hmem => this.1 (by simpa [aggKeys] using hmem)
    have hnodupt1 : (aggKeys t1).Nodup := by
      have := h1
      simp only [aggKeys, List.map_cons, List.nodup_cons] at this
      simpa [aggKeys] using this.2
    have hrest : ∀ e, aggLookup e t1 = aggLookup e (a ++ b) := by
      intro e
      by_cases he : e = k
      · subst he
        rw [aggLookup_eq_none_of_not_mem hknotin1,
          aggLookup_eq_none_of_not_mem hknotin2]
      · have hke : ¬k = e := fun hh => he hh.symm
        have hcons := h e
        simp only [aggLookup, if_neg hke] at hcons
        rw [hcons, aggLookup_append_middle e k v a b hke]
    have hperm1 : t1.Perm (a ++ b) := ih (a ++ b) hnodupt1 hnodupab hrest
    exact (hperm1.cons (k, v)).trans hperm2.symm

/-- Flat-mapping after a map composes the functions. -/
theorem flatMap_map_comp {α β γ : Type} (zs : List α) (f : α → β) (g : β → List γ) :
    (zs.map f).flatMap g = zs.flatMap (fun w => g (f w)) := by
  induction zs with
  | nil => rfl
  | cons w t ih => simp [ih]

/-- Filtering after a map composes the functions. -/
theorem filter_map_length_count (zs : List String) (f : String → zoneResult) (z : String)
    (h : ∀ w ∈ zs, (f w).errored = decide (w = z)) :
    ((zs.map f).filter (fun zr => zr.errored)).length = zs.count z := by
  induction zs with
  | nil => rfl
  | cons w t ih =>
    have hw := h w (List.mem_cons_self _ _)
    have ht : ∀ w2 ∈ t, (f w2).errored = decide (w2 = z) :=
      fun w2 hw2 => h w2 (List.mem_cons_of_mem _ hw2)
    by_cases hz : w = z
    · subst hz
      simp only [List.map_cons, List.filter_cons, hw, decide_eq_true_eq, if_true,
        eq_self_iff_true]
      simp only [List.length_cons, ih ht, List.count_cons_self]
    · have hz2 : ¬z = w := fun hh => hz hh.symm
      simp only [List.map_cons, List.filter_cons, hw]
      rw [if_neg (by simpa using hz)]
      rw [ih ht, List.count_cons_of_ne hz2]

/-- A zone whose contribution is empty can be dropped from the fan-out
without changing the emitted samples. -/
theorem flatMap_filter_ne (zs : List String) (g : String → List metricSample) (z : String)
    (hg : g z = []) :
    zs.flatMap g = (zs.filter (fun w => decide (w ≠ z))).flatMap g := by
  induction zs with
  | nil => rfl
  | cons w t ih =>
    by_cases hz : w = z
    · subst hz
      simp [List.filter_cons, hg, ih]
    · simp [List.filter_cons, hz, ih]

/-- Every sample a cycle emits is built on the collector's response
descriptor. -/
theorem mem_collect_samples_desc (decode : String → Option logEntry) (c : collector)
    (doReq : apiRequest → httpResult) (now : Int) :
    ∀ smp ∈ (collect decode c doReq now).samples, smp.desc = c.responseDesc := by
  intro smp hmem
  simp only [collect] at hmem
  rw [List.mem_flatMap] at hmem
  obtain ⟨zr, _, hin⟩ := hmem
  simp only [emitSamples, List.mem_map] at hin
  obtain ⟨p, _, hp⟩ := hin
  rw [← hp]

/-- A successful construction pins down every field of the collector. -/
theorem newCollector_ok (api : logpullAPI) (zs : List String) (p : Int) (eh : Option Unit)
    (c : collector) (hc : newCollector (some api) zs p eh = Except.ok c) :
    c.api = api ∧ c.zoneIDs = zs ∧ c.logPeriod = p ∧
      c.responseDesc.constLabels = [("period", promDurationString p)] := by
  simp only [newCollector] at hc
  split at hc
  · cases hc
  · split at hc
    · cases hc
    · cases hc
      exact ⟨rfl, rfl, rfl, rfl⟩

/-- A pull that sees a readable non-success response delivers nothing and
fails with the unexpected-status error carrying the status line and the
full body. -/
theorem pull_non200 (decode : String → Option logEntry)
    (handler : logEntry → Option String) (r : httpResponseData)
    (hst : r.statusCode ≠ 200) (hread : r.bodyReadError = none) :
    pullLogEntriesWith decode handler (httpResult.response r) =
      ([], some (pullErr.unexpectedStatus
        ("unexpected api response: " ++ r.status ++ ": " ++ r.body))) := by
  simp only [pullLogEntriesWith]
  rw [if_pos hst, hread]

/-- C2: for a 200 response whose body scans to three decodable lines
followed by a malformed line, the pull returns the json-parse failure
(a `json_parse` RetryableFailure) and the per-record callback has been
invoked exactly three times, in order; nothing after the malformed line
is delivered and nothing delivered is revoked. -/
theorem claim_C2 (decode : String → Option logEntry)
    (handler : logEntry → Option String) (r : httpResponseData)
    (l1 l2 l3 l4 : String) (rest : List String) (e1 e2 e3 : logEntry)
    (hst : r.statusCode = 200)
    (hb : scanLines r.body = l1 :: l2 :: l3 :: l4 :: rest)
    (h1 : decode l1 = some e1) (h2 : decode l2 = some e2) (h3 : decode l3 = some e3)
    (h4 : decode l4 = none) (hh : ∀ x, handler x = none) :
    pullLogEntriesWith decode handler (httpResult.response r) =
      ([e1, e2, e3], some (pullErr.jsonParse l4)) ∧
    retryableKind (pullErr.jsonParse l4) = some ErrKindJSONParse := by
  refine ⟨?_, rfl⟩
  simp only [pullLogEntriesWith]
  rw [if_neg (by simp [hst]), hb]
  simp [scanLoop, h1, h2, h3, h4, hh]

/-- C3: every readable non-success response makes the pull return the
unexpected-status failure (an `http_status` RetryableFailure) whose
diagnostic text is uniformly `unexpected api response: <status>: <body>`
— the full body appears verbatim as a suffix, with no special-casing of
any particular body text. -/
theorem claim_C3 (decode : String → Option logEntry)
    (handler : logEntry → Option String) (r : httpResponseData)
    (hst : r.statusCode ≠ 200) (hread : r.bodyReadError = none) :
    pullLogEntriesWith decode handler (httpResult.response r) =
      ([], some (pullErr.unexpectedStatus
        ("unexpected api response: " ++ r.status ++ ": " ++ r.body))) ∧
    (∃ pre, "unexpected api response: " ++ r.status ++ ": " ++ r.body = pre ++ r.body) ∧
    retryableKind (pullErr.unexpectedStatus
      ("unexpected api response: " ++ r.status ++ ": " ++ r.body)) =
        some ErrKindHTTPStatus :=
  ⟨pull_non200 decode handler r hst hread,
   ⟨"unexpected api response: " ++ r.status ++ ": ", rfl⟩, rfl⟩

/-- C4: collector construction fails exactly when a parameter is invalid
— an empty zone set fails, a period at or above seven days minus one
minute fails, a nil api fails — and a period one second under the bound
with a non-empty zone set succeeds. -/
theorem claim_C4 (api : logpullAPI) (zs : List String) (p : Int) (eh : Option Unit) :
    ((∃ c, newCollector (some api) zs p eh = Except.ok c) ↔
      zs ≠ [] ∧ p < logPeriodRange) ∧
    (∃ msg, newCollector none zs p eh = Except.error msg) ∧
    (zs ≠ [] →
      ∃ c, newCollector (some api) zs (logPeriodRange - secondNs) eh = Except.ok c) := by
  refine ⟨⟨?_, ?_⟩, ⟨_, rfl⟩, ?_⟩
  · rintro ⟨c, hc⟩
    simp only [newCollector] at hc
    by_cases h1 : zs.length = 0
    · rw [if_pos h1] at hc; cases hc
    · rw [if_neg h1] at hc
      by_cases h2 : logPeriodRange ≤ p
      · rw [if_pos h2] at hc; cases hc
      · exact ⟨fun h => h1 (by simp [h]), not_le.mp h2⟩
  · rintro ⟨hzs, hp⟩
    cases hres : newCollector (some api) zs p eh with
    | ok c => exact ⟨c, rfl⟩
    | error msg =>
      exfalso
      simp only [newCollector] at hres
      rw [if_neg (fun h => hzs (List.length_eq_zero.mp h)),
        if_neg (not_le.mpr hp)] at hres
      cases hres
  · intro hzs
    cases hres : newCollector (some api) zs (logPeriodRange - secondNs) eh with
    | ok c => exact ⟨c, rfl⟩
    | error msg =>
      exfalso
      simp only [newCollector] at hres
      rw [if_neg (fun h => hzs (List.length_eq_zero.mp h)),
        if_neg (by decide : ¬logPeriodRange ≤ logPeriodRange - secondNs)] at hres
      cases hres

/-- C5: N records identical in all three attributes drain to the single
pair (tuple, N); an increment inserts a fresh entry read as zero for an
unseen tuple and adds one to the tuple's count, leaving other tuples
untouched. -/
theorem claim_C5 :
    (∀ (e : logEntry) (n : Nat), 0 < n →
      aggFold (List.replicate n e) = [(e, n)]) ∧
    (∀ (m : List (logEntry × Nat)) (e : logEntry),
      aggLookup e (aggInc m e) = some ((aggLookup e m).getD 0 + 1)) ∧
    (∀ (m : List (logEntry × Nat)) (x e : logEntry), e ≠ x →
      aggLookup e (aggInc m x) = aggLookup e m) := by
  refine ⟨?_, aggLookup_aggInc_self, fun m x e h => aggLookup_aggInc_ne m h⟩
  intro e n hn
  cases n with
  | zero => exact absurd hn (lt_irrefl 0)
  | succ k =>
    simp only [aggFold, List.replicate_succ, List.foldl_cons]
    have h1 : aggInc [] e = [(e, 1)] := rfl
    rw [h1, aggFold_replicate_aux k e 1, Nat.add_comm]

/-- C6: against a compliant 200 response whose lines all decode, a pull —
under any of the authentication configurations, the api being arbitrary —
invokes the per-record callback exactly once per line, in the order the
lines appear, and returns no error. -/
theorem claim_C6 (decode : String → Option logEntry) (api : logpullAPI)
    (zoneID : String) (s e : Int) (doReq : apiRequest → httpResult)
    (handler : logEntry → Option String) (r : httpResponseData)
    (entries : List logEntry)
    (hresp : doReq (zoneRequest api zoneID s e) = httpResult.response r)
    (hst : r.statusCode = 200)
    (hlines : List.Forall₂ (fun l ent => decode l = some ent) (scanLines r.body) entries)
    (hh : ∀ x, handler x = none) :
    pullLogEntries decode api zoneID s e doReq handler = (entries, none) := by
  simp only [pullLogEntries, hresp, pullLogEntriesWith]
  rw [if_neg (by simp [hst])]
  exact scanLoop_forall2 decode handler hh hlines

/-- C7: the cycle's window is end = now minus one minute and
start = end minus the configured period, computed from the cycle's single
clock reading; every request dispatched in the cycle carries this
identical pair. -/
theorem claim_C7 (c : collector) (now : Int) :
    windowEnd now = now - minuteNs ∧
    windowStart now c.logPeriod = windowEnd now - c.logPeriod ∧
    (∀ r ∈ collectRequests c now,
      r.startTime = now - minuteNs - c.logPeriod ∧ r.endTime = now - minuteNs) := by
  refine ⟨rfl, rfl, ?_⟩
  intro r hr
  simp only [collectRequests, List.mem_map] at hr
  obtain ⟨z, _, hz⟩ := hr
  rw [← hz]
  exact ⟨rfl, rfl⟩

/-- C8: every request carries the Accept header plus exactly the auth
header set selected by the api's single configured auth mode — one of the
three sets is attached, never more than one and never none. -/
theorem claim_C8 (api : logpullAPI) (zoneID : String) (s e : Int) :
    (zoneRequest api zoneID s e).headers = requestHeaders api ∧
    (match api.authType with
      | authType.authToken =>
          authHeaders api = [("Authorization", "Bearer " ++ api.apiToken)]
      | authType.authKeyEmail =>
          authHeaders api = [("X-Auth-Key", api.apiKey), ("X-Auth-Email", api.apiEmail)]
      | authType.authUserService =>
          authHeaders api = [("X-Auth-User-Service-Key", api.apiUserService)]) ∧
    (("Authorization" ∈ (requestHeaders api).map Prod.fst ∧
        "X-Auth-Key" ∉ (requestHeaders api).map Prod.fst ∧
        "X-Auth-Email" ∉ (requestHeaders api).map Prod.fst ∧
        "X-Auth-User-Service-Key" ∉ (requestHeaders api).map Prod.fst) ∨
      ("Authorization" ∉ (requestHeaders api).map Prod.fst ∧
        "X-Auth-Key" ∈ (requestHeaders api).map Prod.fst ∧
        "X-Auth-Email" ∈ (requestHeaders api).map Prod.fst ∧
        "X-Auth-User-Service-Key" ∉ (requestHeaders api).map Prod.fst) ∨
      ("Authorization" ∉ (requestHeaders api).map Prod.fst ∧
        "X-Auth-Key" ∉ (requestHeaders api).map Prod.fst ∧
        "X-Auth-Email" ∉ (requestHeaders api).map Prod.fst ∧
        "X-Auth-User-Service-Key" ∈ (requestHeaders api).map Prod.fst)) := by
  obtain ⟨burl, auth0, k, em, tok, usk⟩ := api
  cases auth0 with
  | authKeyEmail =>
    exact ⟨rfl, rfl, Or.inr (Or.inl (by simp [requestHeaders, authHeaders]))⟩
  | authUserService =>
    exact ⟨rfl, rfl, Or.inr (Or.inr (by simp [requestHeaders, authHeaders]))⟩
  | authToken =>
    exact ⟨rfl, rfl, Or.inl (by simp [requestHeaders, authHeaders])⟩

/-- C9: every sample a cycle emits is built on the collector's response
descriptor, whose constant period label is the configured window duration
rendered by promDurationString; one minute renders as 1m and ninety
minutes as 1h30m. -/
theorem claim_C9 (decode : String → Option logEntry) (api : logpullAPI)
    (zs : List String) (p : Int) (eh : Option Unit) (c : collector)
    (doReq : apiRequest → httpResult) (now : Int)
    (hc : newCollector (some api) zs p eh = Except.ok c) :
    (∀ smp ∈ (collect decode c doReq now).samples,
      smp.desc.constLabels = [("period", promDurationString p)]) ∧
    promDurationString minuteNs = "1m" ∧
    promDurationString (hourNs + 30 * minuteNs) = "1h30m" := by
  refine ⟨?_, by decide, by decide⟩
  intro smp hmem
  rw [mem_collect_samples_desc decode c doReq now smp hmem]
  exact (newCollector_ok api zs p eh c hc).2.2.2

/-- C10: the aggregator is a pure occurrence counter — the drained counts
sum to the input length, every drained count is strictly positive, the
drained multiset of pairs is invariant under permutation of the input
stream, an empty stream drains to nothing, and pulling a zero-line 200
body delivers nothing and returns no error. -/
theorem claim_C10 :
    (∀ xs : List logEntry, sumCounts (aggFold xs) = xs.length) ∧
    (∀ xs : List logEntry, ∀ p ∈ aggFold xs, 0 < p.2) ∧
    (∀ xs ys : List logEntry, xs.Perm ys → (aggFold xs).Perm (aggFold ys)) ∧
    aggFold [] = [] ∧
    (∀ (decode : String → Option logEntry) (handler : logEntry → Option String)
      (st : String),
      pullLogEntriesWith decode handler
        (httpResult.response
          { statusCode := 200, status := st, body := "", bodyReadError := none }) =
        ([], none)) := by
  refine ⟨?_, ?_, ?_, rfl, ?_⟩
  · intro xs
    have h := sumCounts_foldl xs []
    simpa [aggFold, sumCounts] using h
  · intro xs p hp
    exact pos_counts_foldl xs [] (by simp) p hp
  · intro xs ys hperm
    apply agg_ext_perm _ _ (nodup_aggKeys_aggFold xs) (nodup_aggKeys_aggFold ys)
    intro e
    rw [aggLookup_aggFold, aggLookup_aggFold, hperm.count_eq]
  · intro decode handler st
    rfl

/-- C1: in a cycle where exactly one zone's pull sees a readable
non-success HTTP status and every other zone's pull succeeds, the cycle
completes as a total function of its inputs, increments the error counter
by exactly one, and emits exactly the combined samples of the successful
zones; the failing zone contributes an empty drain, and in general every
zone task emits whatever its private aggregator accumulated from the
records delivered before any failure. -/
theorem claim_C1 (decode : String → Option logEntry) (c : collector)
    (doReq : apiRequest → httpResult) (now : Int) (z : String)
    (hcount : c.zoneIDs.count z = 1)
    (hfail : ∃ r, doReq (zoneRequest c.api z (windowStart now c.logPeriod) (windowEnd now)) =
        httpResult.response r ∧ r.statusCode ≠ 200 ∧ r.bodyReadError = none)
    (hok : ∀ w ∈ c.zoneIDs, w ≠ z →
      (pullLogEntriesWith decode collectorHandler
        (doReq (zoneRequest c.api w (windowStart now c.logPeriod) (windowEnd now)))).2 = none) :
    (collect decode c doReq now).errorIncrements = 1 ∧
    (collect decode c doReq now).samples =
      (c.zoneIDs.filter (fun w => decide (w ≠ z))).flatMap
        (fun w => emitSamples c.responseDesc
          (runZoneTask decode
            (doReq (zoneRequest c.api w (windowStart now c.logPeriod) (windowEnd now)))).agg) ∧
    (runZoneTask decode
      (doReq (zoneRequest c.api z (windowStart now c.logPeriod) (windowEnd now)))).agg = [] ∧
    (∀ resp : httpResult, (runZoneTask decode resp).agg =
      ((pullLogEntriesWith decode collectorHandler resp).1).foldl aggInc []) := by
  obtain ⟨r, hr, hcode, hread⟩ := hfail
  have hz_pull : pullLogEntriesWith decode collectorHandler
      (doReq (zoneRequest c.api z (windowStart now c.logPeriod) (windowEnd now))) =
      ([], some (pullErr.unexpectedStatus
        ("unexpected api response: " ++ r.status ++ ": " ++ r.body))) := by
    rw [hr]
    exact pull_non200 decode collectorHandler r hcode hread
  have hz_err : (runZoneTask decode
      (doReq (zoneRequest c.api z (windowStart now c.logPeriod) (windowEnd now)))).errored
        = true := by
    simp [runZoneTask, hz_pull]
  have hz_agg : (runZoneTask decode
      (doReq (zoneRequest c.api z (windowStart now c.logPeriod) (windowEnd now)))).agg
        = [] := by
    simp [runZoneTask, hz_pull]
  have hw_err : ∀ w ∈ c.zoneIDs, w ≠ z →
      (runZoneTask decode
        (doReq (zoneRequest c.api w (windowStart now c.logPeriod) (windowEnd now)))).errored
          = false := by
    intro w hw hwz
    simp [runZoneTask, hok w hw hwz]
  refine ⟨?_, ?_, hz_agg, fun resp => rfl⟩
  · simp only [collect, collectRequests, List.map_map]
    rw [filter_map_length_count _ _ z ?_]
    · exact hcount
    · intro w hw
      by_cases hwz : w = z
      · subst hwz
        simpa [Function.comp] using hz_err
      · simp only [Function.comp]
        rw [hw_err w hw hwz]
        simp [hwz]
  · simp only [collect, collectRequests, List.map_map]
    rw [flatMap_map_comp]
    rw [flatMap_filter_ne _ _ z ?_]
    · simp only [Function.comp]
    · simp [Function.comp, hz_agg, emitSamples]

/-- Witness for C2: a concrete 200 body of three good lines, a malformed
line, then one more good line; the pull delivers exactly the first three
entries and fails with the json-parse error. -/
theorem claim_C2_witness :
    scanLines ("\x7b\"ClientRequestHost\": \"example.org\", \"EdgeResponseStatus\": 200, \"OriginResponseStatus\": 200\x7d\n\x7b\"ClientRequestHost\": \"example.org\", \"EdgeResponseStatus\": 200, \"OriginResponseStatus\": 200\x7d\n\x7b\"ClientRequestHost\": \"example.org\", \"EdgeResponseStatus\": 200, \"OriginResponseStatus\": 200\x7d\nnot json\n\x7b\"ClientRequestHost\": \"example.org\", \"EdgeResponseStatus\": 200, \"OriginResponseStatus\": 200\x7d") =
      ["\x7b\"ClientRequestHost\": \"example.org\", \"EdgeResponseStatus\": 200, \"OriginResponseStatus\": 200\x7d",
        "\x7b\"ClientRequestHost\": \"example.org\", \"EdgeResponseStatus\": 200, \"OriginResponseStatus\": 200\x7d",
        "\x7b\"ClientRequestHost\": \"example.org\", \"EdgeResponseStatus\": 200, \"OriginResponseStatus\": 200\x7d",
        "not json",
        "\x7b\"ClientRequestHost\": \"example.org\", \"EdgeResponseStatus\": 200, \"OriginResponseStatus\": 200\x7d"] ∧
    jsonUnmarshalLogEntry "not json" = none ∧
    (pullLogEntriesWith jsonUnmarshalLogEntry (fun _ => none)
        (httpResult.response
          { statusCode := 200
            status := "200 OK"
            body := "\x7b\"ClientRequestHost\": \"example.org\", \"EdgeResponseStatus\": 200, \"OriginResponseStatus\": 200\x7d\n\x7b\"ClientRequestHost\": \"example.org\", \"EdgeResponseStatus\": 200, \"OriginResponseStatus\": 200\x7d\n\x7b\"ClientRequestHost\": \"example.org\", \"EdgeResponseStatus\": 200, \"OriginResponseStatus\": 200\x7d\nnot json\n\x7b\"ClientRequestHost\": \"example.org\", \"EdgeResponseStatus\": 200, \"OriginResponseStatus\": 200\x7d"
            bodyReadError := none }) =
      ([{ ClientRequestHost := "example.org", EdgeResponseStatus := 200, OriginResponseStatus := 200 },
        { ClientRequestHost := "example.org", EdgeResponseStatus := 200, OriginResponseStatus := 200 },
        { ClientRequestHost := "example.org", EdgeResponseStatus := 200, OriginResponseStatus := 200 }],
        some (pullErr.jsonParse "not json")) ∧
      retryableKind (pullErr.jsonParse "not json") = some ErrKindJSONParse) :=
  ⟨by decide, by decide,
    claim_C2 jsonUnmarshalLogEntry (fun _ => none) _
      "\x7b\"ClientRequestHost\": \"example.org\", \"EdgeResponseStatus\": 200, \"OriginResponseStatus\": 200\x7d"
      "\x7b\"ClientRequestHost\": \"example.org\", \"EdgeResponseStatus\": 200, \"OriginResponseStatus\": 200\x7d"
      "\x7b\"ClientRequestHost\": \"example.org\", \"EdgeResponseStatus\": 200, \"OriginResponseStatus\": 200\x7d"
      "not json"
      ["\x7b\"ClientRequestHost\": \"example.org\", \"EdgeResponseStatus\": 200, \"OriginResponseStatus\": 200\x7d"]
      { ClientRequestHost := "example.org", EdgeResponseStatus := 200, OriginResponseStatus := 200 }
      { ClientRequestHost := "example.org", EdgeResponseStatus := 200, OriginResponseStatus := 200 }
      { ClientRequestHost := "example.org", EdgeResponseStatus := 200, OriginResponseStatus := 200 }
      rfl (by decide) (by decide) (by decide) (by decide) (by decide) (fun x => rfl)⟩

/-- Witness for C3: a concrete 400 response with the log-retention
rejection body; the pull fails with the unexpected-status error carrying
the body verbatim. -/
theorem claim_C3_witness :
    ((400 : Nat) ≠ 200) ∧
    (pullLogEntriesWith jsonUnmarshalLogEntry (fun _ => none)
        (httpResult.response
          { statusCode := 400
            status := "400 Bad Request"
            body := "Retention is not turned on. Please enable log retention"
            bodyReadError := none }) =
      ([], some (pullErr.unexpectedStatus
        ("unexpected api response: " ++ "400 Bad Request" ++ ": " ++
          "Retention is not turned on. Please enable log retention"))) ∧
    (∃ pre, "unexpected api response: " ++ "400 Bad Request" ++ ": " ++
        "Retention is not turned on. Please enable log retention" =
      pre ++ "Retention is not turned on. Please enable log retention") ∧
    retryableKind (pullErr.unexpectedStatus
      ("unexpected api response: " ++ "400 Bad Request" ++ ": " ++
        "Retention is not turned on. Please enable log retention")) =
      some ErrKindHTTPStatus) :=
  ⟨by decide,
    claim_C3 jsonUnmarshalLogEntry (fun _ => none)
      { statusCode := 400
        status := "400 Bad Request"
        body := "Retention is not turned on. Please enable log retention"
        bodyReadError := none }
      (by decide) rfl⟩

/-- Witness for C4: a one-second-under-the-bound period with one zone and
an error sink constructs successfully. -/
theorem claim_C4_witness :
    (["zone"] : List String) ≠ [] ∧
    (∃ c, newCollector (some (newLogpullAPI "k" "user@example.org")) ["zone"]
        (logPeriodRange - secondNs) (some ()) = Except.ok c) :=
  ⟨by decide,
    (claim_C4 (newLogpullAPI "k" "user@example.org") ["zone"] 0 (some ())).2.2 (by decide)⟩

/-- Witness for C5: three identical records drain to the single pair with
count three. -/
theorem claim_C5_witness :
    0 < 3 ∧
    aggFold (List.replicate 3
        { ClientRequestHost := "example.org", EdgeResponseStatus := 200,
          OriginResponseStatus := 200 }) =
      [({ ClientRequestHost := "example.org", EdgeResponseStatus := 200,
          OriginResponseStatus := 200 }, 3)] :=
  ⟨by decide,
    claim_C5.1
      { ClientRequestHost := "example.org", EdgeResponseStatus := 200,
        OriginResponseStatus := 200 } 3 (by decide)⟩

/-- Witness for C6: a token-authenticated pull against a server answering
200 with two distinct well-formed lines delivers both entries in order
and returns no error. -/
theorem claim_C6_witness :
    pullLogEntries jsonUnmarshalLogEntry (newLogpullAPIWithToken "tok") "zone" 0 1
      (fun _ => httpResult.response
        ⟨200, "200 OK",
          "\x7b\"ClientRequestHost\": \"example.org\", \"EdgeResponseStatus\": 200, \"OriginResponseStatus\": 200\x7d\n\x7b\"ClientRequestHost\": \"other.example\", \"EdgeResponseStatus\": 404, \"OriginResponseStatus\": 502\x7d",
          none⟩)
      (fun _ => none) =
      ([⟨"example.org", 200, 200⟩, ⟨"other.example", 404, 502⟩], none) :=
  claim_C6 jsonUnmarshalLogEntry (newLogpullAPIWithToken "tok") "zone" 0 1 _ (fun _ => none) _
    [⟨"example.org", 200, 200⟩, ⟨"other.example", 404, 502⟩]
    rfl rfl
    (by
      have hsl : scanLines "\x7b\"ClientRequestHost\": \"example.org\", \"EdgeResponseStatus\": 200, \"OriginResponseStatus\": 200\x7d\n\x7b\"ClientRequestHost\": \"other.example\", \"EdgeResponseStatus\": 404, \"OriginResponseStatus\": 502\x7d" =
          ["\x7b\"ClientRequestHost\": \"example.org\", \"EdgeResponseStatus\": 200, \"OriginResponseStatus\": 200\x7d",
            "\x7b\"ClientRequestHost\": \"other.example\", \"EdgeResponseStatus\": 404, \"OriginResponseStatus\": 502\x7d"] := by decide
      rw [hsl]
      exact List.Forall₂.cons (by decide) (List.Forall₂.cons (by decide) List.Forall₂.nil))
    (fun x => rfl)

/-- Witness for C7: with one configured zone the dispatched request
carries exactly the window computed from the cycle's clock reading. -/
theorem claim_C7_witness :
    (zoneRequest (newLogpullAPIWithToken "t") "z" (windowStart 0 minuteNs) (windowEnd 0) ∈
      collectRequests
        ⟨newLogpullAPIWithToken "t", ["z"], minuteNs, ⟨"n", "h", [], []⟩⟩ 0) ∧
    ((zoneRequest (newLogpullAPIWithToken "t") "z" (windowStart 0 minuteNs)
        (windowEnd 0)).startTime = 0 - minuteNs - minuteNs ∧
      (zoneRequest (newLogpullAPIWithToken "t") "z" (windowStart 0 minuteNs)
        (windowEnd 0)).endTime = 0 - minuteNs) :=
  ⟨by decide,
    (claim_C7 ⟨newLogpullAPIWithToken "t", ["z"], minuteNs, ⟨"n", "h", [], []⟩⟩ 0).2.2
      _ (by decide)⟩

/-- Witness for C9: the spec's concrete scenario — a single-zone collector
with a one-minute period against a server answering one record per pull
emits the (example.org, 200, 200) sample with value 1 whose period label
is 1m. -/
theorem claim_C9_witness :
    (newCollector (some (newLogpullAPIWithToken "t")) ["z1"] minuteNs (some ()) =
      Except.ok
        ⟨newLogpullAPIWithToken "t", ["z1"], minuteNs,
          ⟨"cloudflare_logs_http_responses",
            "Cloudflare HTTP responses, obtained via Logpull API",
            ["client_request_host", "edge_response_status", "origin_response_status"],
            [("period", promDurationString minuteNs)]⟩⟩) ∧
    ((⟨⟨"cloudflare_logs_http_responses",
        "Cloudflare HTTP responses, obtained via Logpull API",
        ["client_request_host", "edge_response_status", "origin_response_status"],
        [("period", promDurationString minuteNs)]⟩,
      ["example.org", "200", "200"], 1⟩ : metricSample) ∈
      (collect jsonUnmarshalLogEntry
        ⟨newLogpullAPIWithToken "t", ["z1"], minuteNs,
          ⟨"cloudflare_logs_http_responses",
            "Cloudflare HTTP responses, obtained via Logpull API",
            ["client_request_host", "edge_response_status", "origin_response_status"],
            [("period", promDurationString minuteNs)]⟩⟩
        (fun _ => httpResult.response
          ⟨200, "200 OK",
            "\x7b\"ClientRequestHost\": \"example.org\", \"EdgeResponseStatus\": 200, \"OriginResponseStatus\": 200\x7d",
            none⟩)
        0).samples) ∧
    ((⟨⟨"cloudflare_logs_http_responses",
        "Cloudflare HTTP responses, obtained via Logpull API",
        ["client_request_host", "edge_response_status", "origin_response_status"],
        [("period", promDurationString minuteNs)]⟩,
      ["example.org", "200", "200"], 1⟩ : metricSample).desc.constLabels =
      [("period", promDurationString minuteNs)]) :=
  ⟨rfl, by decide,
    (claim_C9 jsonUnmarshalLogEntry (newLogpullAPIWithToken "t") ["z1"] minuteNs (some ())
        ⟨newLogpullAPIWithToken "t", ["z1"], minuteNs,
          ⟨"cloudflare_logs_http_responses",
            "Cloudflare HTTP responses, obtained via Logpull API",
            ["client_request_host", "edge_response_status", "origin_response_status"],
            [("period", promDurationString minuteNs)]⟩⟩
        (fun _ => httpResult.response
          ⟨200, "200 OK",
            "\x7b\"ClientRequestHost\": \"example.org\", \"EdgeResponseStatus\": 200, \"OriginResponseStatus\": 200\x7d",
            none⟩)
        0 rfl).1 _ (by decide)⟩

/-- Witness for C10: the drained multiset is unchanged when two distinct
records arrive in the opposite order. -/
theorem claim_C10_witness :
    ([⟨"a.example", 200, 200⟩, ⟨"b.example", 404, 502⟩] : List logEntry).Perm
      [⟨"b.example", 404, 502⟩, ⟨"a.example", 200, 200⟩] ∧
    (aggFold [⟨"a.example", 200, 200⟩, ⟨"b.example", 404, 502⟩]).Perm
      (aggFold [⟨"b.example", 404, 502⟩, ⟨"a.example", 200, 200⟩]) :=
  ⟨by decide, claim_C10.2.2.1 _ _ (by decide)⟩

/-- Witness for C1: two zones where zone b answers HTTP 500 and zone a
answers 200 with one record; the cycle completes with exactly one error
increment, emits only zone a's samples, and zone b drains empty. -/
theorem claim_C1_witness :
    (["a", "b"] : List String).count "b" = 1 ∧
    ((collect jsonUnmarshalLogEntry
        ⟨newLogpullAPIWithToken "t", ["a", "b"], 0, ⟨"n", "h", [], []⟩⟩
        (fun r =>
          if r.zoneID = "b" then
            httpResult.response ⟨500, "500 Internal Server Error", "boom", none⟩
          else
            httpResult.response
              ⟨200, "200 OK",
                "\x7b\"ClientRequestHost\": \"example.org\", \"EdgeResponseStatus\": 200, \"OriginResponseStatus\": 200\x7d",
                none⟩)
        0).errorIncrements = 1 ∧
      (collect jsonUnmarshalLogEntry
        ⟨newLogpullAPIWithToken "t", ["a", "b"], 0, ⟨"n", "h", [], []⟩⟩
        (fun r =>
          if r.zoneID = "b" then
            httpResult.response ⟨500, "500 Internal Server Error", "boom", none⟩
          else
            httpResult.response
              ⟨200, "200 OK",
                "\x7b\"ClientRequestHost\": \"example.org\", \"EdgeResponseStatus\": 200, \"OriginResponseStatus\": 200\x7d",
                none⟩)
        0).samples =
        ((["a", "b"] : List String).filter (fun w => decide (w ≠ "b"))).flatMap
          (fun w =>
            emitSamples (⟨newLogpullAPIWithToken "t", ["a", "b"], 0,
                ⟨"n", "h", [], []⟩⟩ : collector).responseDesc
              (runZoneTask jsonUnmarshalLogEntry
                ((fun r =>
                  if r.zoneID = "b" then
                    httpResult.response ⟨500, "500 Internal Server Error", "boom", none⟩
                  else
                    httpResult.response
                      ⟨200, "200 OK",
                        "\x7b\"ClientRequestHost\": \"example.org\", \"EdgeResponseStatus\": 200, \"OriginResponseStatus\": 200\x7d",
                        none⟩)
                  (zoneRequest (newLogpullAPIWithToken "t") w (windowStart 0 0)
                    (windowEnd 0)))).agg) ∧
      (runZoneTask jsonUnmarshalLogEntry
        ((fun r =>
          if r.zoneID = "b" then
            httpResult.response ⟨500, "500 Internal Server Error", "boom", none⟩
          else
            httpResult.response
              ⟨200, "200 OK",
                "\x7b\"ClientRequestHost\": \"example.org\", \"EdgeResponseStatus\": 200, \"OriginResponseStatus\": 200\x7d",
                none⟩)
          (zoneRequest (newLogpullAPIWithToken "t") "b" (windowStart 0 0)
            (windowEnd 0)))).agg = [] ∧
      (∀ resp : httpResult,
        (runZoneTask jsonUnmarshalLogEntry resp).agg =
          ((pullLogEntriesWith jsonUnmarshalLogEntry collectorHandler resp).1).foldl
            aggInc [])) :=
  ⟨by decide,
    claim_C1 jsonUnmarshalLogEntry
      ⟨newLogpullAPIWithToken "t", ["a", "b"], 0, ⟨"n", "h", [], []⟩⟩
      (fun r =>
        if r.zoneID = "b" then
          httpResult.response ⟨500, "500 Internal Server Error", "boom", none⟩
        else
          httpResult.response
            ⟨200, "200 OK",
              "\x7b\"ClientRequestHost\": \"example.org\", \"EdgeResponseStatus\": 200, \"OriginResponseStatus\": 200\x7d",
              none⟩)
      0 "b" (by decide)
      ⟨⟨500, "500 Internal Server Error", "boom", none⟩, rfl, by decide, rfl⟩
      (by decide)⟩
